import Mathlib

/-!
Verification of teenypng (src/teenypng.py), a batch PNG optimizer that chains
an in-process resize (Pillow), an external quantizer (pngquant) and an external
lossless re-optimizer (zopflipng) over files discovered from an input path.

The development is a shallow embedding of the script:

* the filesystem is a finite map from path strings to file contents plus a set
  of directory paths; `os.path.isfile`, `os.path.isdir`, `os.listdir`,
  `os.walk`, `os.replace` are modelled on it;
* images are contents carrying integer pixel dimensions; Pillow `Image.open`
  either decodes an image content or raises, `Image.resize` produces an image
  of the requested dimensions;
* each external tool invocation is an oracle value (`ToolResult`): an exit
  code, an optional content the tool wrote to the path it was given, and the
  captured standard-error text — the script itself only ever looks at the
  filesystem and at `result.stderr`;
* Python `str.replace(".png", suffix)` (used to build the side paths of the
  stages) is `replacePng`, a left-to-right replacement of every occurrence;
* `int(x / 100)` on nonnegative integer `x` is `Int.tdiv x 100` (Python float
  true division followed by `int` truncation; exact for any realistic pixel
  count, and equal to the floor on nonnegative operands).
-/

/-! ## Python string primitives used by the script -/

/-- Does the character list start with the four characters of ".png"?
Helper for the embedding of Python `str.replace(".png", ...)`. -/
def isPngAt : List Char → Bool
  | '.' :: 'p' :: 'n' :: 'g' :: _ => true
  | _ => false

/-- Python `s.replace(".png", rep)`: replace every occurrence of ".png",
scanning left to right over non-overlapping occurrences. -/
def replacePng (rep : List Char) : List Char → List Char
  | '.' :: 'p' :: 'n' :: 'g' :: rest => rep ++ replacePng rep rest
  | c :: rest => c :: replacePng rep rest
  | [] => []

/-- Does ".png" occur anywhere in the character list? -/
def containsPng : List Char → Bool
  | [] => false
  | c :: rest => isPngAt (c :: rest) || containsPng rest

/-- Python `s.lower().endswith(".png")` (ASCII case folding suffices for the
extension test the script performs). -/
def lowerEndsPng (s : String) : Bool :=
  List.isSuffixOf ['.', 'p', 'n', 'g'] (s.data.map Char.toLower)

/-- Python `os.path.join(d, n)` with a single separator. -/
def strJoin (d n : String) : String := d ++ "/" ++ n

/-- If `p` lies directly inside directory `d`, return its entry name:
`p = d ++ "/" ++ n` with `n` nonempty and free of separators. -/
def splitChild (d p : String) : Option String :=
  let pre := d.data ++ ['/']
  if pre.isPrefixOf p.data then
    let rest := p.data.drop pre.length
    if rest.isEmpty || rest.contains '/' then none else some (String.mk rest)
  else none

/-! ## Filesystem model -/

/-- A file content: either an image Pillow can decode, carrying its pixel
dimensions and an opaque tag for the pixel data, or raw undecodable bytes. -/
inductive Content where
  | img (w h : Int) (pixels : Nat)
  | raw (bytes : String)
deriving DecidableEq

/-- The filesystem: an association list of regular files (path to content)
and the list of directory paths. -/
structure FS where
  files : List (String × Content)
  dirs : List String
deriving DecidableEq

/-- Content stored at path `p`, if any. -/
def fsLookup (fs : FS) (p : String) : Option Content := fs.files.lookup p

/-- Python `os.path.isfile`. -/
def isfile (fs : FS) (p : String) : Bool := (fsLookup fs p).isSome

/-- Python `os.path.isdir`. -/
def isdir (fs : FS) (p : String) : Bool := fs.dirs.contains p

/-- Write content `c` at path `p` (create or overwrite). -/
def fsWrite (fs : FS) (p : String) (c : Content) : FS :=
  ⟨(p, c) :: fs.files.filter (fun e => e.1 != p), fs.dirs⟩

/-- Remove the file at path `p`. -/
def fsRemove (fs : FS) (p : String) : FS :=
  ⟨fs.files.filter (fun e => e.1 != p), fs.dirs⟩

/-- Python `os.replace(src, dst)`: atomically rename `src` onto `dst`.
The script only calls it when `src` exists; renaming a path onto itself
leaves the content unchanged. -/
def osReplace (fs : FS) (src dst : String) : FS :=
  match fsLookup fs src with
  | some c => fsWrite (fsRemove fs src) dst c
  | none => fs

/-! ## External tool invocations (oracle model) -/

/-- Outcome of one `subprocess.run` of an external tool: its exit code, the
content it wrote to the output path handed to it (if any), and its captured
standard error text. -/
structure ToolResult where
  exitcode : Int
  output : Option Content
  stderr : String
deriving DecidableEq

/-- Effect of a tool invocation on the filesystem: the tool either wrote an
artifact at the output path or wrote nothing. -/
def runTool (fs : FS) (outPath : String) (res : ToolResult) : FS :=
  match res.output with
  | some c => fsWrite fs outPath c
  | none => fs

/-- What a stage printed for one file: the success message or the failure
message carrying the file path and the captured stderr text. -/
inductive StageReport where
  | ok (path : String)
  | failed (path : String) (stderr : String)
deriving DecidableEq

/-- Is the report the failure message? -/
def StageReport.failed? : StageReport → Bool
  | .ok _ => false
  | .failed _ _ => true

/-! ## The three stage runners (teenypng.py lines 63 to 96) -/

/-- Side path built by `compress_with_pngquant`:
`input_path.replace(".png", "_pngquant.png")`. -/
def pngquantSidePath (p : String) : String :=
  String.mk (replacePng "_pngquant.png".data p.data)

/-- Side path built by `compress_with_zopfli`:
`input_path.replace(".png", "_optimized.png")`. -/
def zopfliSidePath (p : String) : String :=
  String.mk (replacePng "_optimized.png".data p.data)

/-- Side path built by `process_image` for the resize step:
`file_path.replace(".png", "_resized.png")`. -/
def resizedSidePath (p : String) : String :=
  String.mk (replacePng "_resized.png".data p.data)

/-- teenypng.py lines 73 to 83. Runs pngquant with the side path as
`--output`, then checks `os.path.exists(output_path)`: if a file is there, it
replaces the original and prints success; otherwise it prints the failure
message with the captured stderr. The exit code is never consulted. -/
def compress_with_pngquant (fs : FS) (input_path : String) (quality : Int)
    (res : ToolResult) : FS × StageReport :=
  let output_path := pngquantSidePath input_path
  let fs1 := runTool fs output_path res
  if isfile fs1 output_path then
    (osReplace fs1 output_path input_path, StageReport.ok input_path)
  else
    (fs1, StageReport.failed input_path res.stderr)

/-- teenypng.py lines 86 to 96. Same shape as the pngquant stage, with the
`_optimized.png` side path and the iteration count passed to zopflipng. -/
def compress_with_zopfli (fs : FS) (input_path : String) (iterations : Int)
    (res : ToolResult) : FS × StageReport :=
  let temp_output := zopfliSidePath input_path
  let fs1 := runTool fs temp_output res
  if isfile fs1 temp_output then
    (osReplace fs1 temp_output input_path, StageReport.ok input_path)
  else
    (fs1, StageReport.failed input_path res.stderr)

/-! ## Resize stage and per-file pipeline (lines 63 to 70 and 99 to 109) -/

/-- A Python exception escaping a stage. -/
inductive PyErr where
  | unidentifiedImage (path : String)
  | fileNotFound (path : String)
deriving DecidableEq

/-- Pillow `Image.open` on the content at `p`: yields the dimensions and
pixel tag of a decodable image, raises otherwise. -/
def pilOpen (fs : FS) (p : String) : Except PyErr (Int × Int × Nat) :=
  match fsLookup fs p with
  | none => Except.error (PyErr.fileNotFound p)
  | some (Content.img w h d) => Except.ok (w, h, d)
  | some (Content.raw _) => Except.error (PyErr.unidentifiedImage p)

/-- teenypng.py lines 63 to 70. Opens the image, computes
`(int(w * pct / 100), int(h * pct / 100))` and saves the resized image at
the output path. The decode failure is unguarded in the source and
propagates as an exception. -/
def resize_image (fs : FS) (input_path output_path : String)
    (size_percent : Int) : Except PyErr FS :=
  match pilOpen fs input_path with
  | Except.error e => Except.error e
  | Except.ok (w, h, d) =>
      Except.ok (fsWrite fs output_path
        (Content.img (Int.tdiv (w * size_percent) 100)
                     (Int.tdiv (h * size_percent) 100) d))

/-- One pipeline stage, used to record which stages a run invoked. -/
inductive Stage where
  | resize
  | pngquant
  | zopfli
deriving DecidableEq

/-- The oracle results of the two external invocations available to one
per-file job. -/
structure ToolRuns where
  pngquant : ToolResult
  zopfli : ToolResult
deriving DecidableEq

/-- Python truthiness of an optional integer CLI value: `if size:` is false
for `None` and for `0`. -/
def truthy (v : Option Int) : Bool :=
  match v with
  | none => false
  | some n => n != 0

/-- Quantize-then-reoptimize tail of the pipeline (`if quality:` then the
mandatory zopfli call), returning invoked stages, printed reports and the
resulting filesystem. -/
def afterResize (fs : FS) (p : String) (quality : Option Int)
    (iterations : Int) (tools : ToolRuns) :
    List Stage × List StageReport × FS :=
  match quality with
  | some q =>
    if q != 0 then
      let rq := compress_with_pngquant fs p q tools.pngquant
      let rz := compress_with_zopfli rq.1 p iterations tools.zopfli
      ([Stage.pngquant, Stage.zopfli], [rq.2, rz.2], rz.1)
    else
      let rz := compress_with_zopfli fs p iterations tools.zopfli
      ([Stage.zopfli], [rz.2], rz.1)
  | none =>
      let rz := compress_with_zopfli fs p iterations tools.zopfli
      ([Stage.zopfli], [rz.2], rz.1)

/-- teenypng.py lines 99 to 109. `if size:` resize to the `_resized.png`
side path and `os.replace` it onto the original; `if quality:` run pngquant;
always run zopfli. An exception in the resize step aborts the job before the
remaining stages (the trace records the stages that were invoked). -/
def process_image (fs : FS) (file_path : String) (size quality : Option Int)
    (iterations : Int) (tools : ToolRuns) :
    List Stage × List StageReport × Except PyErr FS :=
  match size with
  | some s =>
    if s != 0 then
      match resize_image fs file_path (resizedSidePath file_path) s with
      | Except.error e => ([Stage.resize], [], Except.error e)
      | Except.ok fs1 =>
        let fs2 := osReplace fs1 (resizedSidePath file_path) file_path
        let rest := afterResize fs2 file_path quality iterations tools
        (Stage.resize :: rest.1, rest.2.1, Except.ok rest.2.2)
    else
      let rest := afterResize fs file_path quality iterations tools
      (rest.1, rest.2.1, Except.ok rest.2.2)
  | none =>
      let rest := afterResize fs file_path quality iterations tools
      (rest.1, rest.2.1, Except.ok rest.2.2)

/-- Pixel dimensions of the image stored at `p`, if a decodable image is
there. -/
def dimsAt (fs : FS) (p : String) : Option (Int × Int) :=
  match fsLookup fs p with
  | some (Content.img w h _) => some (w, h)
  | _ => none

/-- Dimensions at `p` after a pipeline result that may have raised. -/
def dimsAfter (r : Except PyErr FS) (p : String) : Option (Int × Int) :=
  match r with
  | Except.ok fs => dimsAt fs p
  | Except.error _ => none

/-! ## File discovery (teenypng.py lines 112 to 129) -/

/-- Python `os.listdir d`: names of the entries (regular files and
subdirectories) lying directly inside directory `d`. -/
def listdir (fs : FS) (d : String) : List String :=
  (fs.files.map Prod.fst ++ fs.dirs).filterMap (fun p => splitChild d p)

/-- Directories visited by `os.walk root`: the root itself and every
directory below it. This models `os.walk` under the standard filesystem
invariant that every ancestor of a recorded path is a recorded directory. -/
def walkDirs (fs : FS) (root : String) : List String :=
  root :: fs.dirs.filter (fun d => (root ++ "/").data.isPrefixOf d.data)

/-- The recursive branch of `get_png_files`: for every directory yielded by
`os.walk`, the regular files directly inside it whose lowercased name ends
in ".png", joined onto that directory. -/
def walkPng (fs : FS) (root : String) : List String :=
  (walkDirs fs root).flatMap (fun d =>
    (fs.files.map Prod.fst).filterMap (fun p =>
      match splitChild d p with
      | some n => if lowerEndsPng n then some (strJoin d n) else none
      | none => none))

/-- teenypng.py lines 112 to 129. Single-file mode for an existing file whose
lowercased path ends in ".png"; directory mode via `os.walk` or `os.listdir`
according to the recursive flag; otherwise an error message and an empty
list. The boolean of the pair records whether the invalid-path error was
printed. -/
def get_png_files (fs : FS) (input_path : String) (recursive : Bool) :
    List String × Bool :=
  if isfile fs input_path && lowerEndsPng input_path then
    ([input_path], false)
  else if isdir fs input_path then
    (if recursive then
      walkPng fs input_path
    else
      (listdir fs input_path).filterMap
        (fun f => if lowerEndsPng f then some (strJoin input_path f) else none),
     false)
  else
    ([], true)

/-- Is `q` of the form `d ++ "/" ++ n` for an entry name `n` whose lowercased
form ends in ".png"? Characterizes the non-recursive discovery results. -/
def isDirectPngChild (d q : String) : Bool :=
  match splitChild d q with
  | some n => lowerEndsPng n
  | none => false

/-! ## Argument parsing and the dispatcher (teenypng.py lines 132 to 168) -/

/-- Why `parse_blender_args` aborted: no `--` separator in `sys.argv`
(`sys.exit(1)`), or argparse rejected the arguments after the separator
(argparse exits with status 2). -/
inductive ParseError where
  | noSeparator
  | badArguments
deriving DecidableEq

/-- Exit status produced by each parse failure. -/
def parseErrorExit : ParseError → Int
  | ParseError.noSeparator => 1
  | ParseError.badArguments => 2

/-- The CLI parameters of one run. -/
structure Args where
  input_path : String
  iterations : Int
  quality : Option Int
  size : Option Int
  recursive : Bool
deriving DecidableEq

/-- Python `sys.argv.index("--") + 1` slicing: the argument list after the
first `--`, or nothing when no separator occurs. -/
def afterSep : List String → Option (List String)
  | [] => none
  | a :: rest => if a = "--" then some rest else afterSep rest

/-- Python `int(s)` as argparse applies it to option values. -/
def pyParseInt (s : String) : Option Int := s.toInt?

/-- Does the token begin with the option prefix character `-`? -/
def startsWithDash (s : String) : Bool :=
  match s.data with
  | '-' :: _ => true
  | _ => false

/-- The argparse loop over the custom arguments: one required positional
`input_path`, integer options `--iterations` (default 15), `--quality`,
`--size`, and the `--recursive` flag. Unknown options, missing option
values, unparsable integers, surplus positionals and a missing
`input_path` make argparse exit with status 2. -/
def parseCustom (toks : List String) (pos : Option String)
    (quality size : Option Int) (iterations : Int) (recursive : Bool) :
    Except ParseError Args :=
  match toks with
  | [] =>
    match pos with
    | some p => Except.ok ⟨p, iterations, quality, size, recursive⟩
    | none => Except.error ParseError.badArguments
  | tok :: rest =>
    if tok = "--recursive" then
      parseCustom rest pos quality size iterations true
    else if tok = "--iterations" then
      match rest with
      | v :: rest2 =>
        match pyParseInt v with
        | some n => parseCustom rest2 pos quality size n recursive
        | none => Except.error ParseError.badArguments
      | [] => Except.error ParseError.badArguments
    else if tok = "--quality" then
      match rest with
      | v :: rest2 =>
        match pyParseInt v with
        | some n => parseCustom rest2 pos (some n) size iterations recursive
        | none => Except.error ParseError.badArguments
      | [] => Except.error ParseError.badArguments
    else if tok = "--size" then
      match rest with
      | v :: rest2 =>
        match pyParseInt v with
        | some n => parseCustom rest2 pos quality (some n) iterations recursive
        | none => Except.error ParseError.badArguments
      | [] => Except.error ParseError.badArguments
    else if startsWithDash tok then
      Except.error ParseError.badArguments
    else
      match pos with
      | none => parseCustom rest (some tok) quality size iterations recursive
      | some _ => Except.error ParseError.badArguments

/-- teenypng.py lines 132 to 150: locate the `--` separator (exiting with
status 1 when absent) and run argparse over what follows. -/
def parse_blender_args (argv : List String) : Except ParseError Args :=
  match afterSep argv with
  | none => Except.error ParseError.noSeparator
  | some custom => parseCustom custom none none none 15 false

/-- teenypng.py line 60: `max(1, os.cpu_count() - 4)`. -/
def NUM_THREADS (cpu_count : Int) : Int := max 1 (cpu_count - 4)

/-- Observable outcome of one run of `main`: the process exit status, the
worker-pool size handed to the executor, the discovered files, the job
submitted for each of them (as its trace, reports and result), and the
parsed parameters if parsing succeeded. -/
structure RunResult where
  exitCode : Int
  poolSize : Int
  pngFiles : List String
  jobs : List (List Stage × List StageReport × Except PyErr FS)
  params : Option Args

/-- teenypng.py lines 153 to 168. Parse failures exit with the argparse or
separator status; an empty discovery list logs and returns (exit status 0);
otherwise one `process_image` job is submitted per discovered file and the
run waits for all of them, exiting 0 regardless of per-job failures (the
`executor.map` results are never consumed, so job exceptions are dropped).
Each job reads the tool oracle for its own file. -/
def main_run (cpu_count : Int) (argv : List String) (fs : FS)
    (tools : String → ToolRuns) : RunResult :=
  match parse_blender_args argv with
  | Except.error e => ⟨parseErrorExit e, NUM_THREADS cpu_count, [], [], none⟩
  | Except.ok args =>
    let pf := get_png_files fs args.input_path args.recursive
    if pf.1.isEmpty then
      ⟨0, NUM_THREADS cpu_count, pf.1, [], some args⟩
    else
      ⟨0, NUM_THREADS cpu_count, pf.1,
       pf.1.map (fun f =>
         process_image fs f args.size args.quality args.iterations (tools f)),
       some args⟩

/-! ## Module startup (teenypng.py lines 45 to 60) -/

/-- Names bound at module scope before line 50 of teenypng.py executes: the
imports of lines 1 to 5 and 45 to 47 and the five function definitions of
lines 7 to 33. No statement of the module binds `projectsfolder`. -/
def moduleNamesBeforeLine50 : List String :=
  ["subprocess", "sys", "site", "os", "importlib",
   "is_pillow_installed", "get_user_site_packages", "install_pillow_user",
   "ensure_user_site_packages_in_sys_path", "verify_pillow",
   "argparse", "ThreadPoolExecutor", "Image"]

/-- A representative list of Python builtins reachable from module scope;
`projectsfolder` is not one of them. -/
def pythonBuiltins : List String :=
  ["print", "len", "max", "min", "int", "str", "list", "range", "open",
   "isinstance", "Exception", "ImportError", "ValueError", "sorted", "map"]

/-- Python name resolution at line 50 of the module: module globals bound so
far, then builtins. -/
def nameResolvesAtLine50 (n : String) : Bool :=
  moduleNamesBeforeLine50.contains n || pythonBuiltins.contains n

/-- Outcome of executing module lines 50 to 57: either both executable paths
are resolved (with the non-fatal existence warnings), or an exception
escapes and startup aborts. -/
inductive StartupOutcome where
  | completes (zopfliPath pngquantPath : String) (warnings : List String)
  | raises (message : String)
deriving DecidableEq

/-- Python `os.getenv(name, default)`. -/
def os_getenv (env : List (String × String)) (name default : String) :
    String :=
  (env.lookup name).getD default

/-- teenypng.py lines 50 to 57. The `os.getenv` calls pass
`os.path.join(projectsfolder, ...)` as default argument; Python evaluates
that argument before calling `os.getenv`, whether or not the variable is
set, and the evaluation resolves the name `projectsfolder`. When the name
does not resolve the line raises `NameError` and module startup aborts; the
warning branch below is therefore unreachable and its placeholder strings
stand in for the values `os.path.join` would have produced. -/
def startupPaths (env : List (String × String)) (diskHas : String → Bool) :
    StartupOutcome :=
  if nameResolvesAtLine50 "projectsfolder" then
    let z := os_getenv env "ZOPFLIPNG" "projectsfolder/Path/to/zopflipng.exe"
    let p := os_getenv env "PNGQUANT" "projectsfolder/Path/to/pngquant.exe"
    StartupOutcome.completes z p
      ((if diskHas z then [] else ["Warning: Zopfli executable not found"]) ++
       (if diskHas p then [] else ["Warning: pngquant executable not found"]))
  else
    StartupOutcome.raises "NameError: name projectsfolder is not defined"

/-- Did argument parsing abort the run? -/
def parseFails (argv : List String) : Bool :=
  match parse_blender_args argv with
  | Except.error _ => true
  | Except.ok _ => false

/-- Is the optional CLI value within the documented 1 to 100 percentage
range (or absent)? -/
def inRangeOpt (o : Option Int) : Bool :=
  match o with
  | none => true
  | some v => decide (1 ≤ v) && decide (v ≤ 100)

/-- Does the optional tool output artifact carry exactly the pixel
dimensions `w` by `h` (or is there no artifact)? Encodes the external
contract that both compressors re-encode the image without changing its
dimensions. -/
def optPreservesDims (o : Option Content) (w h : Int) : Bool :=
  match o with
  | none => true
  | some (Content.img w2 h2 _) => w2 == w && h2 == h
  | some (Content.raw _) => false

/-! ## Helper lemmas -/

theorem replacePng_of_not_contains (rep : List Char) :
    ∀ s : List Char, containsPng s = false → replacePng rep s = s := by
  intro s
  induction s with
  | nil => intro _; rfl
  | cons c rest ih =>
    intro h
    have h' : (isPngAt (c :: rest) || containsPng rest) = false := h
    rw [Bool.or_eq_false_iff] at h'
    rw [replacePng.eq_def]
    split
    · rename_i r heq
      exact absurd (by rw [heq]; rfl : isPngAt (c :: rest) = true)
        (by simp [h'.1])
    · rename_i c' rest' hne heq
      obtain ⟨rfl, rfl⟩ : c = c' ∧ rest = rest' := by
        injection heq with h1 h2; exact ⟨h1, h2⟩
      rw [ih h'.2]
    · rename_i heq
      exact absurd heq (by simp)

theorem sidePaths_self (p : String) (h : containsPng p.data = false) :
    pngquantSidePath p = p ∧ zopfliSidePath p = p ∧ resizedSidePath p = p := by
  refine ⟨?_, ?_, ?_⟩ <;>
    simp [pngquantSidePath, zopfliSidePath, resizedSidePath,
      replacePng_of_not_contains _ _ h]

theorem lookup_filter_ne {α : Type} (l : List (String × α)) (p q : String)
    (h : q ≠ p) :
    List.lookup q (l.filter (fun e => e.1 != p)) = List.lookup q l := by
  induction l with
  | nil => rfl
  | cons a t ih =>
    obtain ⟨k, v⟩ := a
    by_cases ha : k = p
    · subst ha
      have hb : (q == k) = false := by simp [h]
      have hf : (k != k) = false := by simp
      simp [List.filter, hf, List.lookup, hb, ih]
    · have hf : (k != p) = true := by simp [bne_iff_ne, ha]
      by_cases hq : q = k
      · have hb : (q == k) = true := by simp [hq]
        simp [List.filter, hf, List.lookup, hb]
      · have hb : (q == k) = false := by simp [hq]
        simp [List.filter, hf, List.lookup, hb, ih]

theorem lookup_filter_self {α : Type} (l : List (String × α)) (p : String) :
    List.lookup p (l.filter (fun e => e.1 != p)) = none := by
  induction l with
  | nil => rfl
  | cons a t ih =>
    obtain ⟨k, v⟩ := a
    by_cases ha : k = p
    · subst ha
      have hf : (k != k) = false := by simp
      simp [List.filter, hf, ih]
    · have hf : (k != p) = true := by simp [bne_iff_ne, ha]
      have hb : (p == k) = false := by simp [Ne.symm ha]
      simp [List.filter, hf, List.lookup, hb, ih]

theorem lookup_isSome_of_mem_keys {α : Type} (l : List (String × α))
    (e : String) (h : e ∈ l.map Prod.fst) :
    (List.lookup e l).isSome = true := by
  induction l with
  | nil => simp at h
  | cons a t ih =>
    obtain ⟨k, v⟩ := a
    simp only [List.map_cons, List.mem_cons] at h
    by_cases he : e = k
    · have hb : (e == k) = true := by simp [he]
      simp [List.lookup, hb]
    · have hb : (e == k) = false := by simp [he]
      simp only [List.lookup, hb]
      exact ih (h.resolve_left he)

theorem fsLookup_fsWrite_self (fs : FS) (p : String) (c : Content) :
    fsLookup (fsWrite fs p c) p = some c := by
  have hb : (p == p) = true := by simp
  simp [fsLookup, fsWrite, List.lookup, hb]

theorem fsLookup_fsWrite_ne (fs : FS) (p q : String) (c : Content)
    (h : q ≠ p) : fsLookup (fsWrite fs p c) q = fsLookup fs q := by
  have hb : (q == p) = false := by simp [h]
  simp only [fsLookup, fsWrite, List.lookup, hb]
  exact lookup_filter_ne fs.files p q h

theorem fsLookup_fsRemove_self (fs : FS) (p : String) :
    fsLookup (fsRemove fs p) p = none := by
  simp only [fsLookup, fsRemove]
  exact lookup_filter_self fs.files p

theorem fsLookup_fsRemove_ne (fs : FS) (p q : String) (h : q ≠ p) :
    fsLookup (fsRemove fs p) q = fsLookup fs q := by
  simp only [fsLookup, fsRemove]
  exact lookup_filter_ne fs.files p q h

theorem str_ext (a b : String) (h : a.data = b.data) : a = b :=
  congrArg String.mk h

theorem strJoin_data (d n : String) :
    (strJoin d n).data = (d.data ++ ['/']) ++ n.data := by
  show (d.data ++ "/".data) ++ n.data = (d.data ++ ['/']) ++ n.data
  rfl

theorem splitChild_eq_some (d p n : String) (h : splitChild d p = some n) :
    strJoin d n = p ∧ n.data ≠ [] ∧ n.data.contains '/' = false := by
  simp only [splitChild] at h
  by_cases hpre : (d.data ++ ['/']).isPrefixOf p.data = true
  · rw [if_pos hpre] at h
    obtain ⟨t, ht⟩ := List.isPrefixOf_iff_prefix.mp hpre
    have hdrop : p.data.drop (d.data ++ ['/']).length = t := by
      rw [← ht]; exact List.drop_left _ _
    rw [hdrop] at h
    by_cases hg : (t.isEmpty || t.contains '/') = true
    · rw [if_pos hg] at h; exact absurd h (by simp)
    · rw [if_neg hg] at h
      rw [Bool.or_eq_true, not_or] at hg
      obtain ⟨rfl⟩ : String.mk t = n := by injection h
      refine ⟨?_, ?_, ?_⟩
      · apply str_ext
        rw [strJoin_data, ht]
      · intro hnil
        have ht0 : t = [] := hnil
        rw [ht0] at hg
        exact hg.1 rfl
      · show t.contains '/' = false
        exact Bool.eq_false_iff.mpr hg.2
  · rw [if_neg hpre] at h
    exact absurd h (by simp)

theorem splitChild_strJoin (d n : String) (h1 : n.data ≠ [])
    (h2 : n.data.contains '/' = false) :
    splitChild d (strJoin d n) = some n := by
  simp only [splitChild, strJoin_data]
  have hpre : (d.data ++ ['/']).isPrefixOf ((d.data ++ ['/']) ++ n.data) = true := by
    rw [List.isPrefixOf_iff_prefix]; exact List.prefix_append _ _
  rw [if_pos hpre, List.drop_left]
  have hg : (n.data.isEmpty || n.data.contains '/') = false := by
    rw [Bool.or_eq_false_iff]
    exact ⟨by simpa [List.isEmpty_iff] using h1, h2⟩
  have hng : ¬((n.data.isEmpty || n.data.contains '/') = true) := by
    rw [hg]; exact Bool.false_ne_true
  rw [if_neg hng]

theorem lowerEndsPng_strJoin (d n : String) (h : lowerEndsPng n = true) :
    lowerEndsPng (strJoin d n) = true := by
  unfold lowerEndsPng at h ⊢
  rw [List.isSuffixOf_iff_suffix] at h ⊢
  rw [strJoin_data, List.map_append]
  exact h.trans (List.suffix_append _ _)

theorem pngquant_no_output (fs : FS) (p : String) (q : Int) (res : ToolResult)
    (hst : fsLookup fs (pngquantSidePath p) = none) (ho : res.output = none) :
    compress_with_pngquant fs p q res = (fs, StageReport.failed p res.stderr) := by
  simp [compress_with_pngquant, runTool, ho, isfile, hst]

theorem zopfli_no_output (fs : FS) (p : String) (it : Int) (res : ToolResult)
    (hst : fsLookup fs (zopfliSidePath p) = none) (ho : res.output = none) :
    compress_with_zopfli fs p it res = (fs, StageReport.failed p res.stderr) := by
  simp [compress_with_zopfli, runTool, ho, isfile, hst]

theorem pngquant_output (fs : FS) (p : String) (q : Int) (res : ToolResult)
    (c : Content) (ho : res.output = some c) :
    compress_with_pngquant fs p q res =
      (fsWrite (fsRemove (fsWrite fs (pngquantSidePath p) c)
        (pngquantSidePath p)) p c, StageReport.ok p) := by
  simp [compress_with_pngquant, runTool, ho, isfile, osReplace,
    fsLookup_fsWrite_self]

theorem zopfli_output (fs : FS) (p : String) (it : Int) (res : ToolResult)
    (c : Content) (ho : res.output = some c) :
    compress_with_zopfli fs p it res =
      (fsWrite (fsRemove (fsWrite fs (zopfliSidePath p) c)
        (zopfliSidePath p)) p c, StageReport.ok p) := by
  simp [compress_with_zopfli, runTool, ho, isfile, osReplace,
    fsLookup_fsWrite_self]

theorem tdiv_eq_fdiv_of_nonneg (a b : Int) (ha : 0 ≤ a) (hb : 0 ≤ b) :
    a.tdiv b = a.fdiv b := by
  obtain ⟨m, rfl⟩ := Int.eq_ofNat_of_zero_le ha
  obtain ⟨n, rfl⟩ := Int.eq_ofNat_of_zero_le hb
  cases m with
  | zero =>
    show Int.ofNat (0 / n) = Int.fdiv 0 (Int.ofNat n)
    rw [Nat.zero_div]; rfl
  | succ k => rfl

/-! ## Claims -/

/-- C1: the claim says startup resolves the two executable paths (placeholder
default when the variable is unset), warns non-fatally on missing paths and
completes for every environment. On the code this fails: line 50 evaluates
`os.path.join(projectsfolder, ...)` as the `os.getenv` default argument, the
name `projectsfolder` is bound nowhere, and Python evaluates default
arguments eagerly, so module startup raises `NameError` in every
environment, whether or not the variables are set. -/
theorem c1_startup_raises_name_error :
    ∀ (env : List (String × String)) (diskHas : String → Bool),
      startupPaths env diskHas =
        StartupOutcome.raises "NameError: name projectsfolder is not defined" :=
  fun _ _ => rfl

/-- C4: the claim says the re-optimize stage runs exactly once per file,
last, regardless of resize or quantize outcome. On the code, when the resize
stage is requested and the image fails to decode, the unguarded exception
aborts the job before zopfli is ever invoked: on a file holding undecodable
bytes with `--size 50`, the trace records only the resize invocation and the
zopfli stage is absent. -/
theorem c4_decode_failure_skips_zopfli :
    process_image ⟨[("c.png", Content.raw "corrupt")], []⟩ "c.png"
        (some 50) none 15 ⟨⟨0, none, ""⟩, ⟨0, none, ""⟩⟩
      = ([Stage.resize], [], Except.error (PyErr.unidentifiedImage "c.png"))
    ∧ Stage.zopfli ∉ (process_image ⟨[("c.png", Content.raw "corrupt")], []⟩
        "c.png" (some 50) none 15 ⟨⟨0, none, ""⟩, ⟨0, none, ""⟩⟩).1 := by
  exact ⟨rfl, by decide⟩

/-- C2 counterexample: the claim requires a non-zero exit status when no
matching PNG files exist. On the code, a run whose arguments parse (the
`--` separator is present) but whose input path matches nothing prints the
message and returns normally: the process exit status is 0. -/
theorem c2_counterexample :
    afterSep ["blender", "--", "missing.png"] = some ["missing.png"]
    ∧ (get_png_files ⟨[], []⟩ "missing.png" false).1 = []
    ∧ (main_run 8 ["blender", "--", "missing.png"] ⟨[], []⟩
        (fun _ => ⟨⟨0, none, ""⟩, ⟨0, none, ""⟩⟩)).exitCode = 0 := by
  exact ⟨rfl, rfl, rfl⟩

/-- C3 counterexample: the claim says that whenever an external invocation
produces no output artifact at the side-path, the stage reports the captured
error text as a failure. For a discovered file named with an uppercase
extension, `"B.PNG".replace(".png", "_pngquant.png")` is `"B.PNG"` itself,
the post-invocation existence check sees the original file, and the stage
reports success even though the tool produced nothing. -/
theorem c3_counterexample :
    (⟨1, none, "boom"⟩ : ToolResult).output = none
    ∧ compress_with_pngquant ⟨[("B.PNG", Content.raw "orig")], []⟩ "B.PNG" 80
        ⟨1, none, "boom"⟩
      = (⟨[("B.PNG", Content.raw "orig")], []⟩, StageReport.ok "B.PNG") := by
  exact ⟨rfl, by decide⟩

/-- C3 amended: provided no file already exists at the stage side-path
before the invocation (in particular the side-path differs from the original
path), if the external invocation produces no output artifact there, then
the filesystem — in particular the original file — is byte-identical before
and after the stage, and the stage reports the captured error text as a
per-file failure rather than aborting the batch. -/
theorem c3_amended (fs : FS) (p : String) (q it : Int)
    (resQ resZ : ToolResult)
    (hqs : fsLookup fs (pngquantSidePath p) = none)
    (hzs : fsLookup fs (zopfliSidePath p) = none)
    (hoq : resQ.output = none) (hoz : resZ.output = none) :
    compress_with_pngquant fs p q resQ = (fs, StageReport.failed p resQ.stderr)
    ∧ compress_with_zopfli fs p it resZ
        = (fs, StageReport.failed p resZ.stderr) :=
  ⟨pngquant_no_output fs p q resQ hqs hoq,
   zopfli_no_output fs p it resZ hzs hoz⟩

/-- C3 witness: a lowercase `.png` file with empty side-paths and a failing
tool exercises the amended claim. -/
theorem c3_witness :
    compress_with_pngquant ⟨[("b.png", Content.raw "orig")], []⟩ "b.png" 70
        ⟨1, none, "qerr"⟩
      = (⟨[("b.png", Content.raw "orig")], []⟩, StageReport.failed "b.png" "qerr")
    ∧ compress_with_zopfli ⟨[("b.png", Content.raw "orig")], []⟩ "b.png" 15
        ⟨1, none, "zerr"⟩
      = (⟨[("b.png", Content.raw "orig")], []⟩, StageReport.failed "b.png" "zerr") :=
  c3_amended ⟨[("b.png", Content.raw "orig")], []⟩ "b.png" 70 15
    ⟨1, none, "qerr"⟩ ⟨1, none, "zerr"⟩ (by decide) (by decide) rfl rfl

/-- C10: for any file whose path does not contain the lowercase substring
".png" (such as a discovered file with an uppercase ".PNG" extension), all
three side-path strings equal the original path itself; consequently, in the
quantize and re-optimize stages the post-invocation existence check observes
the original file, the failure branch is unreachable, and each stage reports
success — leaving the original content in place — even when the external
tool produced no output at all. -/
theorem c10_side_path_collapse (fs : FS) (p : String) (q it : Int)
    (resQ resZ : ToolResult)
    (hnc : containsPng p.data = false) (hex : isfile fs p = true)
    (hoq : resQ.output = none) (hoz : resZ.output = none) :
    pngquantSidePath p = p ∧ zopfliSidePath p = p ∧ resizedSidePath p = p
    ∧ (compress_with_pngquant fs p q resQ).2 = StageReport.ok p
    ∧ (compress_with_zopfli fs p it resZ).2 = StageReport.ok p
    ∧ fsLookup (compress_with_pngquant fs p q resQ).1 p = fsLookup fs p
    ∧ fsLookup (compress_with_zopfli fs p it resZ).1 p = fsLookup fs p := by
  obtain ⟨h1, h2, h3⟩ := sidePaths_self p hnc
  obtain ⟨c, hc⟩ : ∃ c, fsLookup fs p = some c := by
    have := hex
    simp only [isfile, Option.isSome_iff_exists] at this
    exact this
  have hq : compress_with_pngquant fs p q resQ
      = (fsWrite (fsRemove fs p) p c, StageReport.ok p) := by
    simp [compress_with_pngquant, runTool, hoq, h1, isfile, hc, osReplace]
  have hz : compress_with_zopfli fs p it resZ
      = (fsWrite (fsRemove fs p) p c, StageReport.ok p) := by
    simp [compress_with_zopfli, runTool, hoz, h2, isfile, hc, osReplace]
  refine ⟨h1, h2, h3, by rw [hq], by rw [hz], ?_, ?_⟩
  · rw [hq, hc]; exact fsLookup_fsWrite_self _ p c
  · rw [hz, hc]; exact fsLookup_fsWrite_self _ p c

/-- C10 witness: the uppercase file "A.PNG" is accepted by discovery, and a
failing pngquant invocation on it is nevertheless reported as success. -/
theorem c10_witness :
    get_png_files ⟨[("A.PNG", Content.raw "orig")], []⟩ "A.PNG" false
      = (["A.PNG"], false)
    ∧ (compress_with_pngquant ⟨[("A.PNG", Content.raw "orig")], []⟩ "A.PNG" 80
        ⟨1, none, "boom"⟩).2 = StageReport.ok "A.PNG" :=
  ⟨by decide,
   (c10_side_path_collapse ⟨[("A.PNG", Content.raw "orig")], []⟩ "A.PNG" 80 15
     ⟨1, none, "boom"⟩ ⟨1, none, "zerr"⟩ (by decide) (by decide) rfl
     rfl).2.2.2.1⟩

/-- C7 counterexample: the claim says a non-zero exit status alone is
sufficient for the stage to be reported as a failure. On the code, a tool
exiting with status 1 that still wrote its output file is reported as a
success (the exit status is never read). -/
theorem c7_counterexample :
    (⟨1, some (Content.img 1 1 0), "warn"⟩ : ToolResult).exitcode = 1
    ∧ (compress_with_pngquant ⟨[("a.png", Content.raw "orig")], []⟩ "a.png" 80
        ⟨1, some (Content.img 1 1 0), "warn"⟩).2 = StageReport.ok "a.png" := by
  exact ⟨rfl, by decide⟩

/-- C7 amended: for every file and each external stage, the invocation is
classified as a failure exactly when, after the invocation, no file exists
at the side-path; the failure is logged with the file and the captured
stderr text and processing continues. The exit status is never consulted:
two invocations differing only in exit code behave identically, so a
non-zero exit with the output present is reported as success. -/
theorem c7_amended (fs : FS) (p : String) (q it e1 e2 : Int)
    (out : Option Content) (err : String) :
    ((compress_with_pngquant fs p q ⟨e1, out, err⟩).2.failed? = true
      ↔ isfile (runTool fs (pngquantSidePath p) ⟨e1, out, err⟩)
          (pngquantSidePath p) = false)
    ∧ ((compress_with_zopfli fs p it ⟨e1, out, err⟩).2.failed? = true
      ↔ isfile (runTool fs (zopfliSidePath p) ⟨e1, out, err⟩)
          (zopfliSidePath p) = false)
    ∧ ((compress_with_pngquant fs p q ⟨e1, out, err⟩).2.failed? = true
      → (compress_with_pngquant fs p q ⟨e1, out, err⟩).2
          = StageReport.failed p err)
    ∧ ((compress_with_zopfli fs p it ⟨e1, out, err⟩).2.failed? = true
      → (compress_with_zopfli fs p it ⟨e1, out, err⟩).2
          = StageReport.failed p err)
    ∧ compress_with_pngquant fs p q ⟨e1, out, err⟩
        = compress_with_pngquant fs p q ⟨e2, out, err⟩
    ∧ compress_with_zopfli fs p it ⟨e1, out, err⟩
        = compress_with_zopfli fs p it ⟨e2, out, err⟩ := by
  refine ⟨?_, ?_, ?_, ?_, rfl, rfl⟩
  · by_cases hf : isfile (runTool fs (pngquantSidePath p) ⟨e1, out, err⟩) (pngquantSidePath p) = true
    · simp [compress_with_pngquant, hf, StageReport.failed?]
    · rw [Bool.not_eq_true] at hf
      simp [compress_with_pngquant, hf, StageReport.failed?]
  · by_cases hf : isfile (runTool fs (zopfliSidePath p) ⟨e1, out, err⟩) (zopfliSidePath p) = true
    · simp [compress_with_zopfli, hf, StageReport.failed?]
    · rw [Bool.not_eq_true] at hf
      simp [compress_with_zopfli, hf, StageReport.failed?]
  · by_cases hf : isfile (runTool fs (pngquantSidePath p) ⟨e1, out, err⟩) (pngquantSidePath p) = true
    · simp [compress_with_pngquant, hf, StageReport.failed?]
    · rw [Bool.not_eq_true] at hf
      simp [compress_with_pngquant, hf, StageReport.failed?]
  · by_cases hf : isfile (runTool fs (zopfliSidePath p) ⟨e1, out, err⟩) (zopfliSidePath p) = true
    · simp [compress_with_zopfli, hf, StageReport.failed?]
    · rw [Bool.not_eq_true] at hf
      simp [compress_with_zopfli, hf, StageReport.failed?]

/-- C7 witness: a failing invocation with no output, and two invocations
differing only in exit status. -/
theorem c7_witness :
    ((compress_with_pngquant ⟨[("a.png", Content.raw "x")], []⟩ "a.png" 80
        ⟨0, none, "e"⟩).2.failed? = true
      ↔ isfile (runTool ⟨[("a.png", Content.raw "x")], []⟩
          (pngquantSidePath "a.png") ⟨0, none, "e"⟩)
          (pngquantSidePath "a.png") = false)
    ∧ compress_with_pngquant ⟨[("a.png", Content.raw "x")], []⟩ "a.png" 80
        ⟨0, none, "e"⟩
      = compress_with_pngquant ⟨[("a.png", Content.raw "x")], []⟩ "a.png" 80
        ⟨1, none, "e"⟩ :=
  ⟨(c7_amended ⟨[("a.png", Content.raw "x")], []⟩ "a.png" 80 15 0 1 none
      "e").1,
   (c7_amended ⟨[("a.png", Content.raw "x")], []⟩ "a.png" 80 15 0 1 none
      "e").2.2.2.2.1⟩

/-- C6: for an image of width `w` and height `h` and a supplied percentage
between 1 and 100, the resize stage writes an image of exactly
`floor(w * pct / 100)` by `floor(h * pct / 100)` pixels (`Int.fdiv` is the
floor; the source computes `int(w * pct / 100)`, truncation of the true
quotient, which coincides with the floor on these nonnegative operands). -/
theorem c6_resize_floor (fs : FS) (p out : String) (w h : Int) (d : Nat)
    (pct : Int) (hw : 0 ≤ w) (hh : 0 ≤ h) (h1 : 1 ≤ pct) (h2 : pct ≤ 100)
    (himg : fsLookup fs p = some (Content.img w h d)) :
    resize_image fs p out pct =
      Except.ok (fsWrite fs out
        (Content.img ((w * pct).fdiv 100) ((h * pct).fdiv 100) d)) := by
  have hwp : 0 ≤ w * pct := mul_nonneg hw (le_trans zero_le_one h1)
  have hhp : 0 ≤ h * pct := mul_nonneg hh (le_trans zero_le_one h1)
  simp only [resize_image, pilOpen, himg]
  rw [tdiv_eq_fdiv_of_nonneg _ _ hwp (by norm_num),
    tdiv_eq_fdiv_of_nonneg _ _ hhp (by norm_num)]

/-- C6 witness: a 5 by 3 image resized to 50 percent becomes 2 by 1. -/
theorem c6_witness :
    resize_image ⟨[("a.png", Content.img 5 3 7)], []⟩ "a.png" "a_resized.png" 50
      = Except.ok (fsWrite ⟨[("a.png", Content.img 5 3 7)], []⟩ "a_resized.png"
          (Content.img ((5 * 50 : Int).fdiv 100) ((3 * 50 : Int).fdiv 100) 7))
    ∧ ((5 * 50 : Int).fdiv 100 = 2 ∧ (3 * 50 : Int).fdiv 100 = 1) :=
  ⟨c6_resize_floor ⟨[("a.png", Content.img 5 3 7)], []⟩ "a.png"
    "a_resized.png" 5 3 7 50 (by norm_num) (by norm_num) (by norm_num)
    (by norm_num) (by decide), by decide⟩

/-- C2 amended: the process exits with a non-zero status exactly when
argument parsing fails — no `--` separator present (status 1) or argparse
rejects the arguments after it (status 2). Every run whose arguments parse
exits with status zero, including runs that find no matching PNG files
(they log and return) and runs with per-file or per-stage failures. -/
theorem c2_amended (cpu : Int) (argv : List String) (fs : FS)
    (tools : String → ToolRuns) :
    ((main_run cpu argv fs tools).exitCode ≠ 0 ↔ parseFails argv = true)
    ∧ (parseFails argv = false
        → (main_run cpu argv fs tools).exitCode = 0) := by
  cases hp : parse_blender_args argv with
  | error e =>
    have hx : (main_run cpu argv fs tools).exitCode = parseErrorExit e := by
      simp [main_run, hp]
    constructor
    · rw [hx]
      simp only [parseFails, hp]
      cases e <;> simp [parseErrorExit]
    · intro hf
      simp [parseFails, hp] at hf
  | ok args =>
    have hx : (main_run cpu argv fs tools).exitCode = 0 := by
      simp only [main_run, hp]
      by_cases hemp :
          (get_png_files fs args.input_path args.recursive).1.isEmpty = true
      · simp [hemp]
      · rw [Bool.not_eq_true] at hemp
        simp [hemp]
    rw [hx]
    simp [parseFails, hp]

/-- C2 amended witness: a run without the `--` separator exits with a
non-zero status. -/
theorem c2_witness :
    ((main_run 8 ["blender", "render"] ⟨[], []⟩
        (fun _ => ⟨⟨0, none, ""⟩, ⟨0, none, ""⟩⟩)).exitCode ≠ 0
      ↔ parseFails ["blender", "render"] = true)
    ∧ parseFails ["blender", "render"] = true :=
  ⟨(c2_amended 8 ["blender", "render"] ⟨[], []⟩
      (fun _ => ⟨⟨0, none, ""⟩, ⟨0, none, ""⟩⟩)).1, by decide⟩

/-- C9: the dispatcher sizes its worker pool as exactly
`max(1, cpu_count - 4)`, fixed for the run; it submits exactly one
orchestration job per discovered file (each job applying the pipeline to its
own file with the shared read-only parameters); and the job list is a pure
map over the files, so every job's outcome is produced independently — a
failure inside one job neither removes nor alters any other entry, and the
run completes with all submitted jobs accounted for. -/
theorem c9_dispatcher (cpu : Int) (argv : List String) (fs : FS)
    (tools : String → ToolRuns) :
    (main_run cpu argv fs tools).poolSize = max 1 (cpu - 4)
    ∧ (main_run cpu argv fs tools).jobs.length
        = (main_run cpu argv fs tools).pngFiles.length
    ∧ (∀ a, (main_run cpu argv fs tools).params = some a
        → (main_run cpu argv fs tools).jobs
            = (main_run cpu argv fs tools).pngFiles.map
                (fun f =>
                  process_image fs f a.size a.quality a.iterations
                    (tools f))) := by
  cases hp : parse_blender_args argv with
  | error e =>
    refine ⟨by simp [main_run, hp, NUM_THREADS], by simp [main_run, hp], ?_⟩
    intro a ha
    simp [main_run, hp] at ha
  | ok args =>
    by_cases hemp :
        (get_png_files fs args.input_path args.recursive).1.isEmpty = true
    · have hnil : (get_png_files fs args.input_path args.recursive).1 = [] :=
        List.isEmpty_iff.mp hemp
      refine ⟨by simp [main_run, hp, hemp, NUM_THREADS],
        by simp [main_run, hp, hemp, hnil], ?_⟩
      intro a ha
      simp only [main_run, hp, hemp, if_true] at ha ⊢
      simp [hnil]
    · rw [Bool.not_eq_true] at hemp
      refine ⟨by simp [main_run, hp, hemp, NUM_THREADS],
        by simp [main_run, hp, hemp], ?_⟩
      intro a ha
      simp only [main_run, hp, hemp] at ha ⊢
      simp only [Bool.false_eq_true, if_false] at ha ⊢
      obtain rfl : args = a := by
        have := ha
        simp at this
        exact this
      rfl

/-- C9 witness: a parsed run over a directory holding one PNG file submits
exactly that one job. -/
theorem c9_witness :
    (main_run 8 ["--", "d"] ⟨[("d/a.png", Content.raw "x")], ["d"]⟩
        (fun _ => ⟨⟨0, none, ""⟩, ⟨0, none, ""⟩⟩)).jobs
      = [process_image ⟨[("d/a.png", Content.raw "x")], ["d"]⟩ "d/a.png"
          none none 15 ⟨⟨0, none, ""⟩, ⟨0, none, ""⟩⟩] := by
  rw [(c9_dispatcher 8 ["--", "d"] ⟨[("d/a.png", Content.raw "x")], ["d"]⟩
      (fun _ => ⟨⟨0, none, ""⟩, ⟨0, none, ""⟩⟩)).2.2
    ⟨"d", 15, none, none, false⟩ rfl]
  rfl

/-- C5 counterexample: the claim says directory discovery returns only
files. In non-recursive mode the code filters `os.listdir`, which also lists
subdirectories, so a subdirectory named `x.png` inside the input directory
is returned even though it is not a file. -/
theorem c5_counterexample :
    isfile ⟨[], ["d", "d/x.png"]⟩ "d/x.png" = false
    ∧ (get_png_files ⟨[], ["d", "d/x.png"]⟩ "d" false).1 = ["d/x.png"] := by
  exact ⟨rfl, by decide⟩

/-- C5 amended: for every input path, if it is an existing file whose name
ends in ".png" case-insensitively, discovery returns exactly the singleton
list containing it; if it is a directory with the recursive flag unset,
discovery returns only entries of the directory itself — regular files or
subdirectories — whose name ends in ".png" in any letter case (never
anything from a subdirectory); if it is a directory with the flag set,
discovery returns only regular files below the input path whose name ends
in ".png" in any letter case; otherwise discovery returns an empty list and
reports the invalid-path error. -/
theorem c5_amended (fs : FS) (p : String) (recursive : Bool) :
    ((isfile fs p && lowerEndsPng p) = true
      → get_png_files fs p recursive = ([p], false))
    ∧ ((isfile fs p && lowerEndsPng p) = false → isdir fs p = true
      → recursive = false
      → (get_png_files fs p recursive).1.all
          (fun q => isDirectPngChild p q) = true)
    ∧ ((isfile fs p && lowerEndsPng p) = false → isdir fs p = true
      → recursive = true
      → (get_png_files fs p recursive).1.all
          (fun q => isfile fs q && lowerEndsPng q
            && (p ++ "/").data.isPrefixOf q.data) = true)
    ∧ (isfile fs p = false → isdir fs p = false
      → get_png_files fs p recursive = ([], true)) := by
  refine ⟨?_, ?_, ?_, ?_⟩
  · intro h
    simp [get_png_files, h]
  · intro h1 h2 h3
    subst h3
    simp only [get_png_files, h1, h2, Bool.false_eq_true, if_false, if_true]
    rw [List.all_eq_true]
    intro q hq
    simp only [List.mem_filterMap] at hq
    obtain ⟨n, hn, hfn⟩ := hq
    by_cases hpng : lowerEndsPng n = true
    · rw [if_pos hpng] at hfn
      obtain rfl : strJoin p n = q := by injection hfn
      simp only [listdir, List.mem_filterMap] at hn
      obtain ⟨e, he, hsc⟩ := hn
      obtain ⟨hje, hne, hnc⟩ := splitChild_eq_some p e n hsc
      simp only [isDirectPngChild, splitChild_strJoin p n hne hnc]
      exact hpng
    · rw [if_neg hpng] at hfn
      exact absurd hfn (by simp)
  · intro h1 h2 h3
    subst h3
    simp only [get_png_files, h1, h2, Bool.false_eq_true, if_false, if_true]
    rw [List.all_eq_true]
    intro q hq
    simp only [walkPng, List.mem_flatMap] at hq
    obtain ⟨dd, hdd, hq2⟩ := hq
    simp only [List.mem_filterMap] at hq2
    obtain ⟨e, he, hfe⟩ := hq2
    cases hsc : splitChild dd e with
    | none => rw [hsc] at hfe; exact absurd hfe (by simp)
    | some n =>
      rw [hsc] at hfe
      change (if lowerEndsPng n = true then some (strJoin dd n) else none)
          = some q at hfe
      by_cases hpng : lowerEndsPng n = true
      · rw [if_pos hpng] at hfe
        obtain rfl : strJoin dd n = q := by injection hfe
        obtain ⟨hje, hne, hnc⟩ := splitChild_eq_some dd e n hsc
        have hfq : isfile fs (strJoin dd n) = true := by
          rw [hje]
          exact lookup_isSome_of_mem_keys fs.files e he
        have hlq : lowerEndsPng (strJoin dd n) = true :=
          lowerEndsPng_strJoin dd n hpng
        have hpref : (p ++ "/").data.isPrefixOf (strJoin dd n).data = true := by
          rw [List.isPrefixOf_iff_prefix, strJoin_data]
          simp only [walkDirs, List.mem_cons, List.mem_filter] at hdd
          rcases hdd with rfl | ⟨hmem, hdp⟩
          · show (dd ++ "/").data <+: dd.data ++ ['/'] ++ n.data
            have : (dd ++ "/").data = dd.data ++ ['/'] := by
              show dd.data ++ "/".data = dd.data ++ ['/']
              rfl
            rw [this]
            exact List.prefix_append _ _
          · have hdp2 : (p ++ "/").data <+: dd.data :=
              List.isPrefixOf_iff_prefix.mp hdp
            exact hdp2.trans
              (by rw [List.append_assoc]; exact List.prefix_append _ _)
        rw [hfq, hlq, hpref]
        rfl
      · rw [if_neg hpng] at hfe
        exact absurd hfe (by simp)
  · intro h1 h2
    simp [get_png_files, h1, h2]

/-- C5 witness: single-file mode on a lowercase PNG, and non-recursive
directory mode returning a direct PNG entry. -/
theorem c5_witness :
    get_png_files ⟨[("a.png", Content.raw "x")], []⟩ "a.png" false
      = (["a.png"], false)
    ∧ (get_png_files ⟨[("d/a.png", Content.raw "x")], ["d"]⟩ "d" false).1.all
        (fun q => isDirectPngChild "d" q) = true :=
  ⟨(c5_amended ⟨[("a.png", Content.raw "x")], []⟩ "a.png" false).1 (by decide),
   (c5_amended ⟨[("d/a.png", Content.raw "x")], ["d"]⟩ "d" false).2.1
     (by decide) (by decide) rfl⟩

theorem truthy_iff_ne_none (o : Option Int) (h : inRangeOpt o = true) :
    truthy o = true ↔ o ≠ none := by
  cases o with
  | none => simp [truthy]
  | some v =>
    simp only [inRangeOpt, Bool.and_eq_true, decide_eq_true_eq] at h
    simp only [truthy, bne_iff_ne]
    constructor
    · intro _ hn; exact absurd hn (by simp)
    · intro _; omega

theorem zopfli_dims (fs : FS) (p : String) (it : Int) (res : ToolResult)
    (w h : Int) (hd : dimsAt fs p = some (w, h))
    (hstale : fsLookup fs (zopfliSidePath p) = none)
    (hpd : optPreservesDims res.output w h = true) :
    dimsAt (compress_with_zopfli fs p it res).1 p = some (w, h) := by
  cases ho : res.output with
  | none =>
    rw [zopfli_no_output fs p it res hstale ho]
    exact hd
  | some c =>
    rw [zopfli_output fs p it res c ho]
    rw [ho] at hpd
    cases c with
    | img w2 h2 px =>
      simp only [optPreservesDims, Bool.and_eq_true, beq_iff_eq] at hpd
      simp [dimsAt, fsLookup_fsWrite_self, hpd.1, hpd.2]
    | raw b => simp [optPreservesDims] at hpd

theorem pngquant_then_state (fs : FS) (p : String) (q : Int)
    (res : ToolResult) (w h : Int)
    (hd : dimsAt fs p = some (w, h))
    (hqs : fsLookup fs (pngquantSidePath p) = none)
    (hzs : fsLookup fs (zopfliSidePath p) = none)
    (hqd : optPreservesDims res.output w h = true) :
    dimsAt (compress_with_pngquant fs p q res).1 p = some (w, h)
    ∧ fsLookup (compress_with_pngquant fs p q res).1 (zopfliSidePath p)
        = none := by
  have hzp : zopfliSidePath p ≠ p := by
    intro he
    rw [he] at hzs
    simp [dimsAt, hzs] at hd
  cases ho : res.output with
  | none =>
    rw [pngquant_no_output fs p q res hqs ho]
    exact ⟨hd, hzs⟩
  | some c =>
    rw [pngquant_output fs p q res c ho]
    rw [ho] at hqd
    constructor
    · cases c with
      | img w2 h2 px =>
        simp only [optPreservesDims, Bool.and_eq_true, beq_iff_eq] at hqd
        simp [dimsAt, fsLookup_fsWrite_self, hqd.1, hqd.2]
      | raw b => simp [optPreservesDims] at hqd
    · rw [fsLookup_fsWrite_ne _ _ _ _ hzp]
      by_cases hzq : zopfliSidePath p = pngquantSidePath p
      · rw [hzq]
        exact fsLookup_fsRemove_self _ _
      · rw [fsLookup_fsRemove_ne _ _ _ hzq,
          fsLookup_fsWrite_ne _ _ _ _ hzq]
        exact hzs

theorem afterResize_dims (fs : FS) (p : String) (quality : Option Int)
    (it : Int) (tools : ToolRuns) (w h : Int)
    (hd : dimsAt fs p = some (w, h))
    (hqs : fsLookup fs (pngquantSidePath p) = none)
    (hzs : fsLookup fs (zopfliSidePath p) = none)
    (hqd : optPreservesDims tools.pngquant.output w h = true)
    (hzd : optPreservesDims tools.zopfli.output w h = true) :
    dimsAt (afterResize fs p quality it tools).2.2 p = some (w, h) := by
  cases quality with
  | none =>
    simp only [afterResize]
    exact zopfli_dims fs p it tools.zopfli w h hd hzs hzd
  | some qv =>
    by_cases hq : (qv != 0) = true
    · simp only [afterResize, hq, if_true]
      obtain ⟨h1, h2⟩ :=
        pngquant_then_state fs p qv tools.pngquant w h hd hqs hzs hqd
      exact zopfli_dims _ p it tools.zopfli w h h1 h2 hzd
    · rw [Bool.not_eq_true] at hq
      simp only [afterResize, hq, Bool.false_eq_true, if_false]
      exact zopfli_dims fs p it tools.zopfli w h hd hzs hzd

theorem afterResize_trace (fs : FS) (p : String) (quality : Option Int)
    (it : Int) (tools : ToolRuns) :
    (Stage.pngquant ∈ (afterResize fs p quality it tools).1
      ↔ truthy quality = true)
    ∧ Stage.resize ∉ (afterResize fs p quality it tools).1 := by
  cases quality with
  | none => simp [afterResize, truthy]
  | some qv =>
    by_cases hq : (qv != 0) = true
    · simp [afterResize, hq, truthy]
    · rw [Bool.not_eq_true] at hq
      simp [afterResize, hq, truthy]

/-- C8: for every processed file — provided any supplied percentage is in
the documented 1 to 100 range, the file is a decodable image, no stale
artifact occupies a stage side-path, and the external compressors preserve
pixel dimensions when they produce output — the resize stage is invoked
exactly when a size percentage was supplied and the quantize stage exactly
when a quality floor was supplied; in particular with `--quality` omitted
the quantize stage is never invoked, and with `--size` omitted the pixel
dimensions of the file after the run equal its dimensions before it. -/
theorem c8_stage_selection (fs : FS) (p : String) (size quality : Option Int)
    (iters : Int) (tools : ToolRuns) (w h : Int) (d : Nat)
    (hsz : inRangeOpt size = true) (hql : inRangeOpt quality = true)
    (himg : fsLookup fs p = some (Content.img w h d))
    (hqd : optPreservesDims tools.pngquant.output w h = true)
    (hzd : optPreservesDims tools.zopfli.output w h = true)
    (hqs : fsLookup fs (pngquantSidePath p) = none)
    (hzs : fsLookup fs (zopfliSidePath p) = none) :
    (Stage.resize ∈ (process_image fs p size quality iters tools).1
      ↔ size ≠ none)
    ∧ (Stage.pngquant ∈ (process_image fs p size quality iters tools).1
      ↔ quality ≠ none)
    ∧ (size = none
      → dimsAfter (process_image fs p size quality iters tools).2.2 p
          = some (w, h)) := by
  have hqiff := truthy_iff_ne_none quality hql
  cases size with
  | none =>
    have htr := afterResize_trace fs p quality iters tools
    refine ⟨?_, ?_, ?_⟩
    · simp only [process_image]
      exact ⟨fun hr => absurd hr htr.2, fun hn => absurd rfl hn⟩
    · simp only [process_image]
      exact htr.1.trans hqiff
    · intro _
      simp only [process_image, dimsAfter]
      exact afterResize_dims fs p quality iters tools w h
        (by simp [dimsAt, himg]) hqs hzs hqd hzd
  | some sv =>
    have hsv : (sv != 0) = true := by
      simp only [inRangeOpt, Bool.and_eq_true, decide_eq_true_eq] at hsz
      simp only [bne_iff_ne]
      omega
    have hr : resize_image fs p (resizedSidePath p) sv
        = Except.ok (fsWrite fs (resizedSidePath p)
            (Content.img (Int.tdiv (w * sv) 100) (Int.tdiv (h * sv) 100) d)) := by
      simp [resize_image, pilOpen, himg]
    have hpe : process_image fs p (some sv) quality iters tools
        = (Stage.resize ::
            (afterResize (osReplace (fsWrite fs (resizedSidePath p)
              (Content.img (Int.tdiv (w * sv) 100) (Int.tdiv (h * sv) 100) d))
              (resizedSidePath p) p) p quality iters tools).1,
           (afterResize (osReplace (fsWrite fs (resizedSidePath p)
              (Content.img (Int.tdiv (w * sv) 100) (Int.tdiv (h * sv) 100) d))
              (resizedSidePath p) p) p quality iters tools).2.1,
           Except.ok (afterResize (osReplace (fsWrite fs (resizedSidePath p)
              (Content.img (Int.tdiv (w * sv) 100) (Int.tdiv (h * sv) 100) d))
              (resizedSidePath p) p) p quality iters tools).2.2) := by
      simp [process_image, hsv, hr]
    have htr := afterResize_trace (osReplace (fsWrite fs (resizedSidePath p)
        (Content.img (Int.tdiv (w * sv) 100) (Int.tdiv (h * sv) 100) d))
        (resizedSidePath p) p) p quality iters tools
    refine ⟨?_, ?_, ?_⟩
    · rw [hpe]
      simp
    · rw [hpe]
      simp only [List.mem_cons]
      constructor
      · intro hm
        rcases hm with hm | hm
        · exact absurd hm (by simp)
        · exact hqiff.mp (htr.1.mp hm)
      · intro hn
        exact Or.inr (htr.1.mpr (hqiff.mpr hn))
    · intro hcontra
      exact absurd hcontra (by simp)

/-- C8 witness: with no size, a quality floor of 80, an 4 by 6 image, a
dimension-preserving pngquant artifact and a failing zopfli run, the
quantize stage is invoked and the dimensions survive the run. -/
theorem c8_witness :
    dimsAfter (process_image ⟨[("a.png", Content.img 4 6 0)], []⟩ "a.png"
        none (some 80) 15
        ⟨⟨0, some (Content.img 4 6 1), ""⟩, ⟨1, none, "e"⟩⟩).2.2 "a.png"
      = some (4, 6)
    ∧ (Stage.pngquant ∈ (process_image ⟨[("a.png", Content.img 4 6 0)], []⟩
        "a.png" none (some 80) 15
        ⟨⟨0, some (Content.img 4 6 1), ""⟩, ⟨1, none, "e"⟩⟩).1
      ↔ (some 80 : Option Int) ≠ none) :=
  ⟨(c8_stage_selection ⟨[("a.png", Content.img 4 6 0)], []⟩ "a.png" none
      (some 80) 15 ⟨⟨0, some (Content.img 4 6 1), ""⟩, ⟨1, none, "e"⟩⟩ 4 6 0
      rfl (by decide) rfl (by decide) rfl (by decide) (by decide)).2.2 rfl,
   (c8_stage_selection ⟨[("a.png", Content.img 4 6 0)], []⟩ "a.png" none
      (some 80) 15 ⟨⟨0, some (Content.img 4 6 1), ""⟩, ⟨1, none, "e"⟩⟩ 4 6 0
      rfl (by decide) rfl (by decide) rfl (by decide) (by decide)).2.1⟩
